import Mathlib

/-!
Shallow embedding of the `converty` image-conversion CLI.

The repository has two variants of the orchestrator:
* `src/index.ts` (here `convertImages`) — scans the input directory and
  bootstraps the output directory;
* `dist/index.js` (here `convertImagesDist`) — scans the output directory
  and performs no directory bootstrap.
Pure utilities (`isImageType`, `getFileName`, `getSharpConverter`,
`getImagesFromDir`, the `output` fallback in `promptUser`) are identical in
both variants and are embedded once.

JavaScript strings are Lean `String`s; `undefined`-able strings are
`Option String`; a rejected promise / thrown error is the `Except.error`
branch with `JsError` the error value.  Filesystem and codec effects are an
explicit environment `ConvEnv`.
-/

/-- Model of a JavaScript runtime error value (the `error` caught by
`convertImage` or thrown by `fs` calls). -/
abbrev JsError := String

/-- Splits a list of characters on a separator character, with the exact
semantics of JavaScript `String.prototype.split` for a one-character
separator: the empty string splits to `[""]`, separators at the ends
produce empty segments. -/
def splitChars (sep : Char) : List Char → List (List Char)
  | [] => [[]]
  | c :: rest =>
    if c = sep then [] :: splitChars sep rest
    else
      match splitChars sep rest with
      | [] => [[c]]
      | h :: t => (c :: h) :: t

/-- JavaScript `s.split(sep)` for a one-character separator. -/
def jsSplit (sep : Char) (s : String) : List String :=
  (splitChars sep s.data).map List.asString

/-- Last path component of `p` after discarding trailing `/` separators,
following the scanning loop shared by Node's `path.posix.basename` and
`path.posix.extname` (an all-separator or empty path yields `[]`). -/
def lastComponent (p : String) : List Char :=
  ((p.data.reverse.dropWhile (fun c => c = '/')).takeWhile (fun c => c ≠ '/')).reverse

/-- Node `path.basename`: the last path component (POSIX separators). -/
def basename (p : String) : String :=
  (lastComponent p).asString

/-- Suffix of a component from its last `.` (inclusive). -/
def extAfterLastDot (b : List Char) : List Char :=
  '.' :: (b.reverse.takeWhile (fun c => c ≠ '.')).reverse

/-- Node `path.extname`: the extension of the last path component, with the
leading dot; empty when the component has no dot, is `".."`, or its only
dot is the leading character (hidden files). -/
def extname (p : String) : String :=
  match lastComponent p with
  | [] => ("")
  | c :: rest =>
    if c = '.' ∧ rest = ['.'] then ("")
    else if rest.contains '.' then (extAfterLastDot (c :: rest)).asString
    else ("")

/-- The `supported` list of `isImageType` in `utils`. -/
def supportedFormats : List String :=
  [("webp"), ("png"), ("jpeg"), ("jpg"), ("avif")]

/-- JavaScript `list.includes(x)` where `x` may be `undefined`
(`includes(undefined)` on this list is `false`). -/
def optContains (l : List String) : Option String → Bool
  | some s => l.contains s
  | none => false

/-- Embeds `isImageType` from `utils`: checks the second dot-token of the
basename and the canonical extension against the supported list. -/
def isImageType (filepath : String) : Bool :=
  let supported := supportedFormats
  let name := basename filepath
  let ext := extname filepath
  let type := (jsSplit '.' name).get? 1
  optContains supported type || supported.contains ext

/-- Decides whether `sub` occurs contiguously inside `s`, with the
semantics of JavaScript `String.prototype.includes`. -/
def containsSub : List Char → List Char → Bool
  | [], sub => sub.isEmpty
  | s@(_ :: rest), sub => sub.isPrefixOf s || containsSub rest sub

/-- JavaScript `s.includes(sub)`. -/
def jsIncludes (s sub : String) : Bool :=
  containsSub s.data sub.data

/-- Embeds `getFileName` from `index`: first dot-segment of the original
filename, then `.` and the target format. -/
def getFileName (file : String) (format : String) : String :=
  ((jsSplit '.' file).headD ("")) ++ (".") ++ format

/-- Embeds the `output` computation in `promptUser`
(`!outputPath ? baseAnswers.inputPath : outputPath`): a JavaScript string
is falsy exactly when it is empty. -/
def effectiveOutputPath (outputPath inputPath : String) : String :=
  if outputPath.isEmpty then inputPath else outputPath

/-- Model of Node `path.join` for the two-argument uses in this repository
(plain separator join; Node's normalisation is irrelevant to the claims,
which treat joined paths opaquely). -/
def joinPath (a b : String) : String :=
  if a.isEmpty then b else a ++ ("/") ++ b

/-- Model of Node `path.resolve` on a single already-usable path (the
repository resolves paths it just produced; claims treat the result
opaquely). -/
def resolvePath (p : String) : String :=
  p

/-- Model of `chalk.red.bold` and friends: chalk returns a styled string
and prints nothing; styling is irrelevant to the claims, so the string is
returned unchanged. -/
def chalkRedBold (s : String) : String :=
  s

/-- The `FileInfo` record of `utils`. -/
structure FileInfo where
  path : String
  name : String
  ext : String
deriving DecidableEq, Repr

/-- The `FormatOpts` record of `utils` (the `quality` field is the number
produced by the CLI from the percentage answer). -/
structure FormatOpts where
  format : String
  resize : Bool
  quality : Int
  dimensions : String
deriving DecidableEq, Repr

/-- A Node `fs.Dirent` as used by `getImagesFromDir`. -/
structure DirEnt where
  name : String
  parentPath : String
  isFile : Bool
deriving DecidableEq, Repr

/-- Model of JavaScript `Number(s)` for the nonnegative decimal strings the
CLI feeds it; `none` is `NaN` (for example `Number("None")`). -/
def jsNumberOfString (s : String) : Option Int :=
  match s.toNat? with
  | some n => some (n : Int)
  | none => if s.isEmpty then some 0 else none

/-- JavaScript `Number(v || d)` where `v : Option String` models a possibly
`undefined` destructured component (both `undefined` and `""` are falsy). -/
def jsOrDefault (v : Option String) (d : Int) : Option Int :=
  match v with
  | none => some d
  | some s => if s.isEmpty then some d else jsNumberOfString s

/-- The resize options record `dims` built by `getSharpConverter`. -/
structure ResizeDims where
  width : Option Int
  height : Option Int
  fit : String
deriving DecidableEq, Repr

/-- Observable description of the `sharp` duplex pipeline configured by
`getSharpConverter`: plain `sharp().toFormat(f)`, or
`sharp().f({ quality }).resize(dims)`. -/
inductive SharpConverter where
  | toFormat (format : String)
  | withQualityResize (format : String) (quality : Int) (dims : ResizeDims)
deriving DecidableEq, Repr

/-- Embeds `getSharpConverter` from `utils`: destructures `dimensions` on
`"x"`, defaults each missing or empty component to `100`, and switches on
the format (the `switch` is the equivalent chain of equality tests). -/
def getSharpConverter (options : FormatOpts) : SharpConverter :=
  let parts := jsSplit 'x' options.dimensions
  let width := jsOrDefault (parts.get? 0) 100
  let height := jsOrDefault (parts.get? 1) 100
  let dims : ResizeDims := { width := width, height := height, fit := ("contain") }
  if options.format = ("webp") then
    if !options.resize then .toFormat ("webp")
    else .withQualityResize ("webp") options.quality dims
  else if options.format = ("avif") then
    if !options.resize then .toFormat ("avif")
    else .withQualityResize ("avif") options.quality dims
  else if options.format = ("jpeg") then
    if !options.resize then .toFormat ("jpeg")
    else .withQualityResize ("jpeg") options.quality dims
  else if options.format = ("png") then
    if !options.resize then .toFormat ("png")
    else .withQualityResize ("png") options.quality dims
  else .toFormat options.format

/-- Effect environment: the directory listing returned by `fs.readdir`, the
outcome of `createDir` (`access`-or-`mkdir`), and the outcome of
`stream.pipeline` for a given input file, output file and configured
converter. -/
structure ConvEnv where
  readdir : String → List DirEnt
  createDirResult : String → Except JsError Unit
  pipelineResult : String → String → SharpConverter → Except JsError Unit

/-- Embeds `getImagesFromDir` from `utils`: keep the regular files whose
joined path passes `isImageType`, and package each as a `FileInfo`. -/
def getImagesFromDir (env : ConvEnv) (directory : String) : List FileInfo :=
  let contents := env.readdir directory
  let images := contents.filter (fun item =>
    item.isFile && isImageType (joinPath item.parentPath item.name))
  images.map (fun item =>
    { path := joinPath item.parentPath item.name
      name := item.name
      ext := extname item.name })

/-- Embeds `convertImage` from `utils`: build the converter, run the
pipeline, and catch any error (`try { await pipeline(...) } catch (error)
{ return error }`).  The outer `Except` is the promise of the `async`
function itself: `.error` would be a rejection seen by the caller, `.ok v`
a resolution with value `v` (`none` models `undefined`). -/
def convertImage (env : ConvEnv) (inputFile outputFile : String)
    (options : FormatOpts) : Except JsError (Option JsError) :=
  let duplex := getSharpConverter options
  match env.pipelineResult inputFile outputFile duplex with
  | .ok _ => .ok none
  | .error e => .ok (some e)

/-- The filter step of `convertImages`
(`allImages.filter((image) => !image.name.includes(format))`). -/
def candidateImages (allImages : List FileInfo) (format : String) : List FileInfo :=
  allImages.filter (fun image => ! jsIncludes image.name format)

/-- Model of `Promise.all` over already-settled task outcomes in input
order: resolves with the list of values, or rejects if some task
rejected. -/
def promiseAll : List (Except JsError (Option JsError)) →
    Except JsError (List (Option JsError))
  | [] => .ok []
  | t :: rest =>
    match t, promiseAll rest with
    | .error e, _ => .error e
    | .ok _, .error e => .error e
    | .ok v, .ok vs => .ok (v :: vs)

/-- How a call of the orchestrator ends: `process.exit(code)`, an uncaught
rejection, or an ordinary resolution with the result list. -/
inductive RunOutcome where
  | exited (code : Nat)
  | crashed (e : JsError)
  | returned (results : List (Option JsError))
deriving DecidableEq, Repr

/-- Outcome of an orchestrator call together with the lines it printed to
the console (`log` calls; a computed-but-discarded chalk string prints
nothing). -/
structure OrchResult where
  outcome : RunOutcome
  printed : List String
deriving DecidableEq, Repr

/-- Embeds `convertImages` from `src/index.ts`: scan the input directory,
drop images whose name contains the format, exit 0 on an empty list (the
two chalk strings are computed and discarded, nothing is logged), ensure
the output directory, then convert all candidates and return the collected
results. -/
def convertImages (env : ConvEnv) (inputDir outputDir : String)
    (options : FormatOpts) : OrchResult :=
  let format := options.format
  let allImages := getImagesFromDir env inputDir
  let imagesInDir := candidateImages allImages format
  if imagesInDir.isEmpty then
    let _msg1 := chalkRedBold (("No images in directory: \n") ++ inputDir)
    let _msg2 := chalkRedBold ("Exiting.")
    { outcome := .exited 0, printed := [] }
  else
    match env.createDirResult outputDir with
    | .error e => { outcome := .crashed e, printed := [] }
    | .ok _ =>
      let promises := imagesInDir.map (fun image =>
        convertImage env (resolvePath image.path)
          (joinPath outputDir (getFileName image.name format)) options)
      match promiseAll promises with
      | .error e => { outcome := .crashed e, printed := [] }
      | .ok allResults => { outcome := .returned allResults, printed := [] }

/-- Embeds `convertImages` from `dist/index.js`: identical to the source
variant except that it scans the OUTPUT directory
(`getImagesFromDir(outputDir)`) and never calls `createDir`. -/
def convertImagesDist (env : ConvEnv) (inputDir outputDir : String)
    (options : FormatOpts) : OrchResult :=
  let format := options.format
  let allImages := getImagesFromDir env outputDir
  let imagesInDir := candidateImages allImages format
  if imagesInDir.isEmpty then
    let _msg1 := chalkRedBold (("No images in directory: \n") ++ inputDir)
    let _msg2 := chalkRedBold ("Exiting.")
    { outcome := .exited 0, printed := [] }
  else
    let promises := imagesInDir.map (fun image =>
      convertImage env (resolvePath image.path)
        (joinPath outputDir (getFileName image.name format)) options)
    match promiseAll promises with
    | .error e => { outcome := .crashed e, printed := [] }
    | .ok allResults => { outcome := .returned allResults, printed := [] }

/-- Collapses a list of optional values, succeeding only when every slot is
filled. -/
def allSome : List (Option α) → Option (List α)
  | [] => some []
  | none :: _ => none
  | some a :: rest => (allSome rest).map (fun l => a :: l)

/-- Event-loop model of the `Promise.all` join: task `j` finishes at its
position in `schedule` and writes its value into slot `j`; the join
succeeds when every slot has been filled. -/
def settleAll (tasks : List α) (schedule : List Nat) : Option (List α) :=
  let slots := schedule.foldl (fun acc j => acc.set j tasks[j]?)
    (List.replicate tasks.length none)
  allSome slots

/-- The collapsed classifier of claim C10: membership of the second
dot-token of the basename alone (the spec-side single check that the dual
check of `isImageType` is asserted to collapse to). -/
def tokenOnlyCheck (p : String) : Bool :=
  optContains supportedFormats ((jsSplit '.' (basename p)).get? 1)

/-- The value with which a `convertImage` promise resolves (the captured
pipeline error, or `none` for `undefined`). -/
def convertValue (env : ConvEnv) (inputFile outputFile : String)
    (options : FormatOpts) : Option JsError :=
  match env.pipelineResult inputFile outputFile (getSharpConverter options) with
  | .ok _ => none
  | .error e => some e

/-- Sample environment: the input directory holds one JPEG, every
filesystem and codec call succeeds. -/
def envSample : ConvEnv :=
  { readdir := fun d => if d = ("in") then [⟨("a.jpg"), ("in"), true⟩] else []
    createDirResult := fun _ => .ok ()
    pipelineResult := fun _ _ _ => .ok () }

/-- Sample environment: the input directory holds one file already in PNG
format. -/
def envAlreadyPng : ConvEnv :=
  { readdir := fun d => if d = ("in") then [⟨("a.png"), ("in"), true⟩] else []
    createDirResult := fun _ => .ok ()
    pipelineResult := fun _ _ _ => .ok () }

/-- Sample environment: the directory holds the two files of the C4
substring-filter example. -/
def envSubstrPair : ConvEnv :=
  { readdir := fun d =>
      if d = ("dir") then
        [⟨("vacation.png"), ("dir"), true⟩, ⟨("png_source.jpg"), ("dir"), true⟩]
      else []
    createDirResult := fun _ => .ok ()
    pipelineResult := fun _ _ _ => .ok () }

/-- Options record: convert to webp, no resize. -/
def optsWebp : FormatOpts :=
  { format := ("webp"), resize := false, quality := 100, dimensions := ("None") }

/-- Options record: convert to png, no resize. -/
def optsPng : FormatOpts :=
  { format := ("png"), resize := false, quality := 100, dimensions := ("None") }

lemma splitChars_headD (sep : Char) (l : List Char) :
    (splitChars sep l).headD [] = l.takeWhile (fun c => c ≠ sep) := by
  induction l with
  | nil => rfl
  | cons c rest ih =>
    by_cases h : c = sep
    · simp [splitChars, h]
    · simp only [splitChars, if_neg h]
      cases hs : splitChars sep rest with
      | nil =>
        rw [hs, List.headD_nil] at ih
        rw [List.headD_cons, List.takeWhile_cons, if_pos (by simp [h]), ← ih]
      | cons hh tt =>
        rw [hs, List.headD_cons] at ih
        rw [List.headD_cons, List.takeWhile_cons, if_pos (by simp [h]), ← ih]

lemma jsSplit_headD (sep : Char) (s : String) :
    (jsSplit sep s).headD ("") = (s.data.takeWhile (fun c => c ≠ sep)).asString := by
  unfold jsSplit
  rw [← splitChars_headD]
  cases splitChars sep s.data with
  | nil => rfl
  | cons h t => rfl

lemma asString_dot_ne (t : List Char) (s : String)
    (hs : s.data.head? ≠ some '.') : ('.' :: t).asString ≠ s := by
  intro h
  apply hs
  rw [← h]
  rfl

lemma extname_shape (p : String) :
    extname p = ("") ∨ ∃ t, extname p = ('.' :: t).asString := by
  unfold extname
  cases lastComponent p with
  | nil => left; rfl
  | cons c rest =>
    dsimp only
    split_ifs with h1 h2
    · left; rfl
    · right; exact ⟨_, rfl⟩
    · left; rfl

lemma extname_not_supported (p : String) :
    supportedFormats.contains (extname p) = false := by
  rcases extname_shape p with h | ⟨t, h⟩
  · rw [h]; decide
  · rw [h]
    simp only [supportedFormats, List.contains_cons, List.contains_nil,
      Bool.or_eq_false_iff, beq_eq_false_iff_ne, ne_eq]
    refine ⟨?_, ?_, ?_, ?_, ?_, trivial⟩ <;> exact asString_dot_ne t _ (by decide)

lemma containsSub_iff (s sub : List Char) :
    containsSub s sub = true ↔ ∃ l r, s = l ++ sub ++ r := by
  induction s with
  | nil =>
    simp only [containsSub, List.isEmpty_iff]
    constructor
    · intro h
      exact ⟨[], [], by simp [h]⟩
    · rintro ⟨l, r, h⟩
      rcases List.append_eq_nil.mp h.symm with ⟨h1, h2⟩
      rcases List.append_eq_nil.mp h1 with ⟨_, h3⟩
      exact h3
  | cons c rest ih =>
    simp only [containsSub, Bool.or_eq_true, ih]
    constructor
    · rintro (hpre | ⟨l, r, hr⟩)
      · obtain ⟨t, ht⟩ := List.isPrefixOf_iff_prefix.mp hpre
        exact ⟨[], t, by simp [← ht]⟩
      · exact ⟨c :: l, r, by simp [hr]⟩
    · rintro ⟨l, r, h⟩
      cases l with
      | nil =>
        left
        exact List.isPrefixOf_iff_prefix.mpr ⟨r, by simpa using h.symm⟩
      | cons x xs =>
        right
        rw [List.cons_append, List.cons_append] at h
        injection h with _ htl
        exact ⟨xs, r, htl⟩

lemma getSharpConverter_of_no_resize (o : FormatOpts) (h : o.resize = false) :
    getSharpConverter o = SharpConverter.toFormat o.format := by
  unfold getSharpConverter
  rw [h]
  simp only [Bool.not_false, if_true]
  split_ifs <;> simp_all

lemma convertImage_eq (env : ConvEnv) (i o : String) (opts : FormatOpts) :
    convertImage env i o opts = .ok (convertValue env i o opts) := by
  unfold convertImage convertValue
  dsimp only
  cases env.pipelineResult i o (getSharpConverter opts) <;> rfl

lemma promiseAll_map_ok {β : Type} (l : List β) (f : β → Option JsError) :
    promiseAll (l.map (fun a => Except.ok (f a))) = .ok (l.map f) := by
  induction l with
  | nil => rfl
  | cons a rest ih =>
    have hstep : promiseAll ((a :: rest).map (fun x => Except.ok (f x)))
        = match (Except.ok (f a) : Except JsError (Option JsError)),
            promiseAll (rest.map (fun x => Except.ok (f x))) with
          | .error e, _ => .error e
          | .ok _, .error e => .error e
          | .ok v, .ok vs => .ok (v :: vs) := rfl
    rw [hstep, ih]
    rfl

lemma foldl_set_length {α : Type} (tasks : List α) (sched : List Nat)
    (init : List (Option α)) :
    (sched.foldl (fun acc j => acc.set j tasks[j]?) init).length = init.length := by
  induction sched generalizing init with
  | nil => rfl
  | cons k rest ih => rw [List.foldl_cons, ih, List.length_set]

lemma foldl_set_getElem? {α : Type} (tasks : List α) (sched : List Nat) :
    ∀ (init : List (Option α)) (j : Nat), init.length = tasks.length → j < tasks.length →
      (sched.foldl (fun acc i => acc.set i tasks[i]?) init)[j]?
        = if j ∈ sched then some tasks[j]? else init[j]? := by
  induction sched with
  | nil =>
    intro init j _ _
    simp
  | cons k rest ih =>
    intro init j hlen hj
    rw [List.foldl_cons, ih (init.set k tasks[k]?) j (by rw [List.length_set]; exact hlen) hj]
    by_cases hjr : j ∈ rest
    · simp [hjr]
    · rw [if_neg hjr]
      by_cases hjk : j = k
      · subst hjk
        rw [List.getElem?_set_self (by rw [hlen]; exact hj)]
        rw [if_pos (List.mem_cons_self j rest)]
      · rw [List.getElem?_set_ne (fun hk => hjk hk.symm)]
        rw [if_neg (by simp [List.mem_cons, hjk, hjr])]

lemma allSome_map_some {α : Type} (l : List α) : allSome (l.map some) = some l := by
  induction l with
  | nil => rfl
  | cons a rest ih => simp [allSome, ih]

lemma settleAll_complete {α : Type} (tasks : List α) (sched : List Nat)
    (h : ∀ j, j < tasks.length → j ∈ sched) : settleAll tasks sched = some tasks := by
  unfold settleAll
  dsimp only
  have hslots : sched.foldl (fun acc j => acc.set j tasks[j]?)
      (List.replicate tasks.length none) = tasks.map some := by
    apply List.ext_getElem?
    intro j
    by_cases hj : j < tasks.length
    · rw [foldl_set_getElem? tasks sched _ j (by simp) hj, if_pos (h j hj),
        List.getElem?_map, List.getElem?_eq_getElem hj]
      rfl
    · have hge : tasks.length ≤ j := Nat.le_of_not_lt hj
      rw [List.getElem?_eq_none (by rw [foldl_set_length, List.length_replicate]; exact hge),
        List.getElem?_eq_none (by rw [List.length_map]; exact hge)]
  rw [hslots, allSome_map_some]

/-- Claim C1: for every environment, input file path, output file path and
options record, `convertImage` resolves (never rejects): with `none`
(`undefined`) when the stream/codec pipeline succeeds, and with the
captured error value when the pipeline fails — so a failure is returned,
not propagated to the caller. -/
theorem convertImage_fail_soft (env : ConvEnv) (inputFile outputFile : String)
    (options : FormatOpts) :
    (env.pipelineResult inputFile outputFile (getSharpConverter options) = .ok () →
      convertImage env inputFile outputFile options = .ok none)
    ∧ (∀ e, env.pipelineResult inputFile outputFile (getSharpConverter options) = .error e →
      convertImage env inputFile outputFile options = .ok (some e))
    ∧ (∀ e, convertImage env inputFile outputFile options ≠ .error e) := by
  unfold convertImage
  dsimp only
  refine ⟨fun h => by rw [h], fun e h => by rw [h], fun e => ?_⟩
  cases h : env.pipelineResult inputFile outputFile (getSharpConverter options) <;> simp [h]

/-- Witness for C1: a succeeding pipeline resolves with `none`, a failing
pipeline resolves with the captured error. -/
theorem convertImage_fail_soft_witness :
    convertImage (⟨fun _ => [], fun _ => .ok (), fun _ _ _ => .ok ()⟩ : ConvEnv)
      ("a.jpg") ("a.webp") ⟨("webp"), false, 100, ("None")⟩ = .ok none
    ∧ convertImage (⟨fun _ => [], fun _ => .ok (), fun _ _ _ => .error ("boom")⟩ : ConvEnv)
      ("a.jpg") ("a.webp") ⟨("webp"), false, 100, ("None")⟩ = .ok (some ("boom")) :=
  ⟨(convertImage_fail_soft _ _ _ _).left rfl,
   (convertImage_fail_soft _ _ _ _).right.left ("boom") rfl⟩

/-- Claim C2: whenever the filtered image list is non-empty and the output
directory bootstrap succeeds, `convertImages` returns a result list of
exactly the filtered list's length whose entry at position `i` is the
value with which converting the image at position `i` resolves — and the
assembled list is independent of the completion schedule of the tasks
(`settleAll` yields the same input-ordered list for every complete
schedule). -/
theorem convertImages_ordered_results (env : ConvEnv) (inputDir outputDir : String)
    (options : FormatOpts)
    (hne : candidateImages (getImagesFromDir env inputDir) options.format ≠ [])
    (hdir : env.createDirResult outputDir = .ok ()) :
    ∃ R : List (Option JsError),
      (convertImages env inputDir outputDir options).outcome = RunOutcome.returned R
      ∧ R.length = (candidateImages (getImagesFromDir env inputDir) options.format).length
      ∧ (∀ (i : Nat) (image : FileInfo),
          (candidateImages (getImagesFromDir env inputDir) options.format)[i]? = some image →
          ∃ v, R[i]? = some v ∧
            convertImage env (resolvePath image.path)
              (joinPath outputDir (getFileName image.name options.format)) options
              = Except.ok v)
      ∧ (∀ schedule : List Nat, (∀ j, j < R.length → j ∈ schedule) →
          settleAll R schedule = some R) := by
  refine ⟨(candidateImages (getImagesFromDir env inputDir) options.format).map
    (fun image => convertValue env (resolvePath image.path)
      (joinPath outputDir (getFileName image.name options.format)) options), ?_, ?_, ?_, ?_⟩
  · unfold convertImages
    dsimp only
    rw [if_neg (fun hemp => hne (List.isEmpty_iff.mp hemp)), hdir]
    dsimp only
    have hmap : (candidateImages (getImagesFromDir env inputDir) options.format).map
        (fun image => convertImage env (resolvePath image.path)
          (joinPath outputDir (getFileName image.name options.format)) options)
        = (candidateImages (getImagesFromDir env inputDir) options.format).map
          (fun image => Except.ok (convertValue env (resolvePath image.path)
            (joinPath outputDir (getFileName image.name options.format)) options)) :=
      List.map_congr_left (fun image _ => convertImage_eq env _ _ options)
    rw [hmap, promiseAll_map_ok]
  · rw [List.length_map]
  · intro i image hgi
    refine ⟨_, ?_, convertImage_eq env _ _ options⟩
    rw [List.getElem?_map, hgi]
    rfl
  · intro sched hs
    exact settleAll_complete _ sched hs

/-- Witness for C2: on a directory with one JPEG and target webp the
orchestrator returns a result list. -/
theorem convertImages_ordered_results_witness :
    ∃ R : List (Option JsError),
      (convertImages envSample ("in") ("out") optsWebp).outcome = RunOutcome.returned R := by
  obtain ⟨R, h1, -, -, -⟩ :=
    convertImages_ordered_results envSample ("in") ("out") optsWebp (by decide) rfl
  exact ⟨R, h1⟩

/-- Claim C3: for every non-empty filename, `isImageType` is true exactly
when the canonical extension or the second dot-token of the basename is a
case-sensitive member of the supported set, with the documented examples
(`a.png` true, `a.pngx`, `a.tar.gz`, `photo.PNG.bak` false). -/
theorem isImageType_spec (f : String) (_hf : f ≠ ("")) :
    (isImageType f = true ↔
      (extname f ∈ supportedFormats ∨
        ∃ t, (jsSplit '.' (basename f)).get? 1 = some t ∧ t ∈ supportedFormats))
    ∧ isImageType ("a.png") = true
    ∧ isImageType ("a.pngx") = false
    ∧ isImageType ("a.tar.gz") = false
    ∧ isImageType ("photo.PNG.bak") = false := by
  refine ⟨?_, by decide, by decide, by decide, by decide⟩
  have hext : extname f ∉ supportedFormats := by
    intro hm
    have h2 : supportedFormats.contains (extname f) = true := List.elem_iff.mpr hm
    rw [extname_not_supported f] at h2
    cases h2
  unfold isImageType
  dsimp only
  rw [extname_not_supported f, Bool.or_false]
  constructor
  · intro h
    right
    cases hg : (jsSplit '.' (basename f)).get? 1 with
    | none => rw [hg] at h; cases h
    | some t =>
      rw [hg] at h
      exact ⟨t, rfl, List.elem_iff.mp h⟩
  · rintro (hm | ⟨t, hg, hmem⟩)
    · exact absurd hm hext
    · rw [hg]
      exact List.elem_iff.mpr hmem

/-- Witness for C3: the classifier accepts `a.png`. -/
theorem isImageType_spec_witness : isImageType ("a.png") = true :=
  (isImageType_spec ("a.png") (by decide)).right.left

/-- Claim C4: membership in the orchestrator's candidate list is exactly
membership in the scanned list plus the absence of the target format as a
substring of the filename; with target `png` both `vacation.png` and
`png_source.jpg` are filtered out, so a run over exactly those two files
attempts no conversion. -/
theorem convertImages_substring_filter :
    (∀ (allImages : List FileInfo) (format : String) (image : FileInfo),
      image ∈ candidateImages allImages format ↔
        image ∈ allImages ∧ ¬ ∃ l r, image.name.data = l ++ format.data ++ r)
    ∧ candidateImages
        [⟨("dir/vacation.png"), ("vacation.png"), (".png")⟩,
         ⟨("dir/png_source.jpg"), ("png_source.jpg"), (".jpg")⟩] ("png") = []
    ∧ convertImages envSubstrPair ("dir") ("dir") optsPng
        = { outcome := RunOutcome.exited 0, printed := [] } := by
  refine ⟨?_, by decide, by decide⟩
  intro allImages format image
  unfold candidateImages
  rw [List.mem_filter]
  constructor
  · rintro ⟨hm, hf⟩
    refine ⟨hm, fun hex => ?_⟩
    rw [Bool.not_eq_true', ← Bool.not_eq_true] at hf
    exact hf ((containsSub_iff image.name.data format.data).mpr hex)
  · rintro ⟨hm, hn⟩
    refine ⟨hm, ?_⟩
    rw [Bool.not_eq_true', ← Bool.not_eq_true]
    intro hc
    exact hn ((containsSub_iff image.name.data format.data).mp hc)

/-- Claim C5 (divergence witness): with one convertible JPEG in the input
directory and an empty output directory, the dist orchestrator — which
scans the OUTPUT directory — exits with "no images" while the TypeScript
source orchestrator scans the input directory and converts the file. -/
theorem dist_orchestrator_scans_output_dir :
    convertImagesDist envSample ("in") ("out") optsWebp
      = { outcome := RunOutcome.exited 0, printed := [] }
    ∧ convertImages envSample ("in") ("out") optsWebp
      = { outcome := RunOutcome.returned [none], printed := [] } :=
  ⟨by decide, by decide⟩

/-- Claim C6: `getFileName` keeps exactly the prefix of the filename before
the first dot and appends the target format, including the documented
multi-dot collapse. -/
theorem getFileName_first_segment (file format : String) :
    getFileName file format
      = (file.data.takeWhile (fun c => c ≠ '.')).asString ++ (".") ++ format
    ∧ getFileName ("photo.jpg") ("webp") = ("photo.webp")
    ∧ getFileName ("my.photo.v2.png") ("jpg") = ("my.jpg") := by
  refine ⟨?_, by decide, by decide⟩
  unfold getFileName
  rw [jsSplit_headD]

/-- Claim C7 (divergence witness): when every scanned image is already in
the target format the orchestrator exits with code 0 and attempts no
conversion, but prints NOTHING — the "no images" chalk strings are
computed and discarded, so no report reaches the user. -/
theorem convertImages_no_images_silent_exit :
    convertImages envAlreadyPng ("in") ("out") optsPng
      = { outcome := RunOutcome.exited 0, printed := [] } := by
  decide

/-- Claim C8 (counterexample): a whitespace-only output path is truthy in
JavaScript, so it is used verbatim instead of falling back to the input
directory, contradicting the claim's "empty or whitespace-only" clause. -/
theorem effectiveOutputPath_whitespace_counterexample :
    effectiveOutputPath (" ") ("in") ≠ ("in") := by
  decide

/-- Claim C8 (amended): only the EMPTY output path falls back to the input
directory; every non-empty output path — whitespace included — is used
verbatim. -/
theorem effectiveOutputPath_empty_fallback (outputPath inputPath : String) :
    (outputPath = ("") → effectiveOutputPath outputPath inputPath = inputPath)
    ∧ (outputPath ≠ ("") → effectiveOutputPath outputPath inputPath = outputPath) := by
  constructor
  · intro h
    subst h
    rfl
  · intro h
    unfold effectiveOutputPath
    rw [if_neg]
    simpa [String.isEmpty_iff] using h

/-- Witness for the amended C8: empty falls back, a space is kept. -/
theorem effectiveOutputPath_empty_fallback_witness :
    effectiveOutputPath ("") ("in") = ("in") ∧ effectiveOutputPath (" ") ("in") = (" ") :=
  ⟨(effectiveOutputPath_empty_fallback ("") ("in")).left rfl,
   (effectiveOutputPath_empty_fallback (" ") ("in")).right (by decide)⟩

/-- Claim C9: with `resize` false the configured converter is plain format
transcoding, hence identical for any two options records that agree on the
format, whatever their quality and dimensions. -/
theorem getSharpConverter_ignores_quality_dims (o₁ o₂ : FormatOpts)
    (hfmt : o₁.format = o₂.format) (h₁ : o₁.resize = false) (h₂ : o₂.resize = false) :
    getSharpConverter o₁ = getSharpConverter o₂
    ∧ getSharpConverter o₁ = SharpConverter.toFormat o₁.format := by
  rw [getSharpConverter_of_no_resize o₁ h₁, getSharpConverter_of_no_resize o₂ h₂, hfmt]
  exact ⟨rfl, rfl⟩

/-- Witness for C9: same converter for quality 100/no dimensions and
quality 65/800x350. -/
theorem getSharpConverter_ignores_quality_dims_witness :
    getSharpConverter ⟨("webp"), false, 100, ("None")⟩
      = getSharpConverter ⟨("webp"), false, 65, ("800x350")⟩ :=
  (getSharpConverter_ignores_quality_dims
    ⟨("webp"), false, 100, ("None")⟩ ⟨("webp"), false, 65, ("800x350")⟩ rfl rfl rfl).left

/-- Claim C10: the extension disjunct of `isImageType` is vacuous — Node's
`extname` result (dotted or empty) is never in the dotless supported set —
so the classifier coincides with the single second-token check. -/
theorem isImageType_ext_disjunct_vacuous (p : String) :
    supportedFormats.contains (extname p) = false
    ∧ isImageType p = tokenOnlyCheck p := by
  refine ⟨extname_not_supported p, ?_⟩
  unfold isImageType tokenOnlyCheck
  dsimp only
  rw [extname_not_supported p, Bool.or_false]
